import Mathlib

/-!
Verification development for the `httpsig` HTTP message-signature library.

The definitions below are a shallow embedding of the Go sources:
`httpsig.go` (public API: `NewSigner` header normalization, `Verifier.Verify`
with body-digest checking) and the verifier file (`verifier.Verify`,
`verifier.ResolveKey`, the per-algorithm `verHolder` values).

Go strings are Lean `String`s; all string manipulation (`strings.Split`,
`strings.SplitN`, `strings.Trim`, case mapping, base64 decoding) is
implemented here by structural recursion over character lists so that every
definition evaluates by kernel reduction.  Byte slices are `List Nat`.
Go's `sync.Map` key cache is an association list threaded through the
functions as explicit state.  A cryptographic verifying operation (Go's
`verImpl`: an `io.Writer` accumulating the signing base plus a finalizing
`verify` closure) is collapsed to its pure semantics: a function from the
accumulated bytes and the presented signature to a success flag.
-/

namespace Httpsig

/-! ## String helpers (Go `strings` package operations, char-list based) -/

/-- Test whether the first list is a prefix of the second. -/
def isPrefixOfL : List Char → List Char → Bool
  | [], _ => true
  | _ :: _, [] => false
  | a :: as, b :: bs => a = b && isPrefixOfL as bs

/-- Split a character list on every occurrence of the two-character
separator `", "`, scanning left to right with non-overlapping matches;
embeds Go `strings.Split(s, ", ")`. -/
def splitCommaSpaceL : List Char → List (List Char)
  | [] => [[]]
  | [x] => [[x]]
  | x :: y :: xs =>
    if x = ',' ∧ y = ' ' then [] :: splitCommaSpaceL xs
    else
      match splitCommaSpaceL (y :: xs) with
      | [] => [[x]]
      | z :: zs => (x :: z) :: zs

/-- Split a character list on every occurrence of the single character `c`;
embeds Go `strings.Split(s, c)` for a one-character separator. -/
def splitCharL (c : Char) : List Char → List (List Char)
  | [] => [[]]
  | x :: xs =>
    if x = c then [] :: splitCharL c xs
    else
      match splitCharL c xs with
      | [] => [[x]]
      | z :: zs => (x :: z) :: zs

/-- Split at the first occurrence of character `c`, if any. -/
def splitFirstL (c : Char) : List Char → Option (List Char × List Char)
  | [] => none
  | x :: xs =>
    if x = c then some ([], xs)
    else (splitFirstL c xs).map (fun p => (x :: p.1, p.2))

/-- Embeds Go `strings.SplitN(s, c, 2)` for a one-character separator:
the result has one element when `c` does not occur, two otherwise. -/
def splitN2L (c : Char) (l : List Char) : List (List Char) :=
  match splitFirstL c l with
  | none => [l]
  | some (a, b) => [a, b]

/-- Go `strings.Split(s, ", ")` on `String`s. -/
def goSplitCommaSpace (s : String) : List String :=
  (splitCommaSpaceL s.toList).map List.asString

/-- Go `strings.Split(s, sep)` for a one-character `sep`, on `String`s. -/
def goSplitChar (c : Char) (s : String) : List String :=
  (splitCharL c s.toList).map List.asString

/-- Go `strings.SplitN(s, sep, 2)` for a one-character `sep`, on `String`s. -/
def goSplitN2 (c : Char) (s : String) : List String :=
  (splitN2L c s.toList).map List.asString

/-- Go `strings.Trim(s, ":")`: remove all leading and trailing colons. -/
def trimColons (s : String) : String :=
  ((((s.toList.dropWhile (fun c => c = ':')).reverse).dropWhile
      (fun c => c = ':')).reverse).asString

/-- Lower-case a string character by character. -/
def lower (s : String) : String :=
  (s.toList.map Char.toLower).asString

/-- Upper-case a string character by character. -/
def upper (s : String) : String :=
  (s.toList.map Char.toUpper).asString

/-- Whether `s` starts with the prefix `pre`. -/
def goStartsWith (s pre : String) : Bool :=
  isPrefixOfL pre.toList s.toList

/-- Drop the first `n` characters of a string. -/
def goDrop (s : String) (n : Nat) : String :=
  (s.toList.drop n).asString

/-- Join a list of strings with `", "` between elements
(Go's multi-valued header combination rule). -/
def joinCommaSpace : List String → String
  | [] => ""
  | [x] => x
  | x :: xs => x ++ ", " ++ joinCommaSpace xs

/-- Numeric value of a decimal digit character. -/
def digitVal (c : Char) : Option Nat :=
  if '0' ≤ c ∧ c ≤ '9' then some (c.toNat - 48) else none

/-- Accumulating decimal parser over a character list. -/
def parseNatL : List Char → Nat → Option Nat
  | [], acc => some acc
  | c :: cs, acc =>
    match digitVal c with
    | some d => parseNatL cs (acc * 10 + d)
    | none => none

/-- Parse a non-empty all-digit string as a natural number. -/
def parseNatS (s : String) : Option Nat :=
  match s.toList with
  | [] => none
  | l => parseNatL l 0

/-! ## Base64 (Go `encoding/base64` StdEncoding decoding) -/

/-- Value of one standard-alphabet base64 character. -/
def b64Val (c : Char) : Option Nat :=
  if 'A' ≤ c ∧ c ≤ 'Z' then some (c.toNat - 65)
  else if 'a' ≤ c ∧ c ≤ 'z' then some (c.toNat - 97 + 26)
  else if '0' ≤ c ∧ c ≤ '9' then some (c.toNat - 48 + 52)
  else if c = '+' then some 62
  else if c = '/' then some 63
  else none

/-- Decode one final base64 quantum, allowing `=` padding. -/
def b64FinalGroup : Char → Char → Char → Char → Option (List Nat)
  | a, b, '=', '=' => do
    let x ← b64Val a
    let y ← b64Val b
    pure [x * 4 + y / 16]
  | a, b, c, '=' => do
    let x ← b64Val a
    let y ← b64Val b
    let z ← b64Val c
    pure [x * 4 + y / 16, (y % 16) * 16 + z / 4]
  | a, b, c, d => do
    let x ← b64Val a
    let y ← b64Val b
    let z ← b64Val c
    let w ← b64Val d
    pure [x * 4 + y / 16, (y % 16) * 16 + z / 4, (z % 4) * 64 + w]

/-- Decode a base64 character list in four-character quanta; padding is
only allowed in the final quantum and the length must be a multiple of
four, as in Go's `base64.StdEncoding.DecodeString`. -/
def base64DecodeL : List Char → Option (List Nat)
  | [] => some []
  | [a, b, c, d] => b64FinalGroup a b c d
  | a :: b :: c :: d :: rest => do
    let x ← b64Val a
    let y ← b64Val b
    let z ← b64Val c
    let w ← b64Val d
    let r ← base64DecodeL rest
    pure ((x * 4 + y / 16) :: ((y % 16) * 16 + z / 4) :: ((z % 4) * 64 + w) :: r)
  | _ => none

/-- Embeds Go `base64.StdEncoding.DecodeString`. -/
def base64Decode (s : String) : Option (List Nat) :=
  base64DecodeL s.toList

/-! ## Data model -/

/-- Verification errors of the library (the `errors.New` values of the
verifier file, plus the canonicalization failures of §4.1 and the
digest-mismatch error of `Verifier.Verify` in `httpsig.go`). -/
inductive VError where
  | errNotSigned
  | errMalformedSignature
  | errUnknownKey
  | errAlgMismatch
  | errSignatureExpired
  | errInvalidSignature
  | errComponentNotFound
  | errCanonicalization
  | errDigestMismatch
deriving DecidableEq, Repr

/-- Embeds the Go `message` value consumed by `verifier.Verify`:
method, URL path, raw query, authority and the header multimap.
A header is a list of (name, values) pairs; lookup is case-insensitive
and `Get` returns the first value, as in `net/http.Header`. -/
structure message where
  Method : String
  Path : String
  RawQuery : String
  Authority : String
  Header : List (String × List String)
deriving DecidableEq

/-- All values stored under a header name, looked up case-insensitively
(first matching entry), as in `net/http.Header`. -/
def headerValues (h : List (String × List String)) (key : String) :
    Option (List String) :=
  (h.find? (fun p => lower p.1 == lower key)).map (fun p => p.2)

/-- Embeds `http.Header.Get`: the first value stored under the name,
or `""` when absent. -/
def headerGet (h : List (String × List String)) (key : String) : String :=
  match headerValues h key with
  | some (v :: _) => v
  | _ => ""

/-- Embeds `http.Header.Set`: replace all values under the name. -/
def setHeader (h : List (String × List String)) (key val : String) :
    List (String × List String) :=
  (key, [val]) :: h.filter (fun p => !(lower p.1 == lower key))

/-- Embeds the Go `signatureParams` record produced by
`parseSignatureInput`: ordered component list, key id, declared algorithm
(`""` when absent) and optional created/expires Unix timestamps. -/
structure signatureParams where
  items : List String
  keyID : String
  alg : String
  created : Option Nat
  expires : Option Nat
deriving DecidableEq, Repr

/-- Embeds the Go `verHolder`: the algorithm identifier bound to a key
(empty for dynamically resolved keys) together with the verifying
strategy.  Go's factory `verifier func() verImpl` produces a single-use
accumulator (`w`) plus finalizer (`verify`); its pure semantics is one
function from the accumulated signing-base bytes and the presented
signature bytes to a success flag. -/
structure verHolder where
  alg : String
  verify : String → List Nat → Bool

/-- Embeds the Go `verifier` struct: the `sync.Map` key cache as an
association list, the optional dynamic `VerifyingKeyResolver`
(a resolved key is its pure `Verify(data, signature)` semantics), and
the injectable test clock `nowFunc` (the Unix time it would report). -/
structure verifier where
  keys : List (String × verHolder)
  resolver : Option (String → Option (String → List Nat → Bool))
  nowFunc : Unit → Nat

/-- Lookup in the association-list model of the `sync.Map` key cache. -/
def lookupKey (keys : List (String × verHolder)) (keyID : String) :
    Option verHolder :=
  (keys.find? (fun p => p.1 == keyID)).map (fun p => p.2)

/-- Embeds `verifier.ResolveKey` (state-passing for the `sync.Map`):
statically registered keys are consulted first; otherwise the dynamic
resolver is invoked and a hit is wrapped into a `verHolder` with an
unbound (empty) algorithm and cached; a miss is not cached. -/
def verifier.ResolveKey (v : verifier) (keyID : String) :
    Option verHolder × verifier :=
  match lookupKey v.keys keyID with
  | some holder => (some holder, v)
  | none =>
    match v.resolver with
    | some res =>
      match res keyID with
      | some kverify =>
        let holder : verHolder := { alg := "", verify := kverify }
        (some holder, { v with keys := v.keys ++ [(keyID, holder)] })
      | none => (none, v)
    | none => (none, v)

/-! ## Signature-Input parsing (spec-modelled) -/

/-- Parse a double-quoted token (`"xyz"` with no interior quote). -/
def parseQuoted (s : String) : Option String :=
  match s.toList with
  | '"' :: rest =>
    match rest.reverse with
    | '"' :: mid => if mid.contains '"' then none else some mid.reverse.asString
    | _ => none
  | _ => none

/-- Parse the parenthesized item list body: space-separated quoted
component identifiers; an empty body is rejected. -/
def parseItems (inner : String) : Option (List String) :=
  (goSplitChar ' ' inner).mapM parseQuoted

/-- Accumulator for the `;`-separated parameters of a
`Signature-Input` value. -/
structure paramAcc where
  keyid : Option String
  alg : Option String
  created : Option Nat
  expires : Option Nat

/-- Fold one `key=value` parameter into the accumulator: `keyid` and
`alg` take quoted string values, `created` and `expires` take decimal
timestamps; a duplicate key or a malformed value is rejected and an
unknown key is ignored (§4.2). -/
def parseOneParam (acc : paramAcc) (p : String) : Option paramAcc :=
  match goSplitN2 '=' p with
  | [k, v] =>
    if k = "keyid" then
      match acc.keyid, parseQuoted v with
      | none, some s => some { acc with keyid := some s }
      | _, _ => none
    else if k = "alg" then
      match acc.alg, parseQuoted v with
      | none, some s => some { acc with alg := some s }
      | _, _ => none
    else if k = "created" then
      match acc.created, parseNatS v with
      | none, some n => some { acc with created := some n }
      | _, _ => none
    else if k = "expires" then
      match acc.expires, parseNatS v with
      | none, some n => some { acc with expires := some n }
      | _, _ => none
    else some acc
  | _ => none

/-- Modelled from the spec: `parseSignatureInput` (the Signature-Input
parser of §4.2 is not among the provided source files).  Grammar: an
ordered parenthesized list of quoted component identifiers followed by
`;`-separated `key=value` parameters (`keyid`, `alg`, `created`,
`expires`) in any order; duplicates rejected, unknown keys ignored,
timestamps decimal, item list non-empty, `keyID` required (§3). -/
def parseSignatureInput (s : String) : Option signatureParams :=
  if goStartsWith s "(" then
    match goSplitN2 ')' (goDrop s 1) with
    | [inner, rest] => do
      let items ← parseItems inner
      let ps ←
        if rest = "" then some []
        else if goStartsWith rest ";" then some (goSplitChar ';' (goDrop rest 1))
        else none
      let acc ← ps.foldlM parseOneParam ⟨none, none, none, none⟩
      let kid ← acc.keyid
      pure { items := items, keyID := kid, alg := acc.alg.getD "",
             created := acc.created, expires := acc.expires }
    | _ => none
  else none

/-! ## Canonicalization (spec-modelled) -/

/-- Modelled from the spec: `canonicalizeMethod` (§4.1; the
canonicalization source file is not provided).  Upper-cased method on
one `"@method"` line. -/
def canonicalizeMethod (method : String) : Except VError String :=
  .ok ("\"@method\": " ++ upper method ++ "\n")

/-- Modelled from the spec: `canonicalizePath` (§4.1).  The path must
start with `/`; an empty path fails. -/
def canonicalizePath (path : String) : Except VError String :=
  if goStartsWith path "/" then .ok ("\"@path\": " ++ path ++ "\n")
  else .error .errCanonicalization

/-- Modelled from the spec: `canonicalizeQuery` (§4.1).  The raw query
string with its leading `?`. -/
def canonicalizeQuery (rawQuery : String) : Except VError String :=
  .ok ("\"@query\": ?" ++ rawQuery ++ "\n")

/-- Modelled from the spec: `canonicalizeAuthority` (§4.1).  The
authority must not be empty. -/
def canonicalizeAuthority (auth : String) : Except VError String :=
  if auth = "" then .error .errCanonicalization
  else .ok ("\"@authority\": " ++ auth ++ "\n")

/-- Modelled from the spec: `canonicalizeHeader` (§4.1).  Case-insensitive
lookup, `ComponentNotFound` when absent, multiple values comma-joined. -/
def canonicalizeHeader (name : String) (h : List (String × List String)) :
    Except VError String :=
  match headerValues h name with
  | none => .error .errComponentNotFound
  | some vs => .ok ("\"" ++ lower name ++ "\": " ++ joinCommaSpace vs ++ "\n")

/-- One iteration of the canonicalization loop of `verifier.Verify`
(lines 126–147): dispatch on the specialty components of section 2.3,
defaulting to header canonicalization. -/
def canonicalizeComponent (m : message) (h : String) : Except VError String :=
  if h = "@method" then canonicalizeMethod m.Method
  else if h = "@path" then canonicalizePath m.Path
  else if h = "@query" then canonicalizeQuery m.RawQuery
  else if h = "@authority" then canonicalizeAuthority m.Authority
  else canonicalizeHeader h m.Header

/-- The canonicalization loop of `verifier.Verify`: append one canonical
line per component, returning the first error immediately. -/
def canonicalizeItems (m : message) : List String → Except VError String
  | [] => .ok ""
  | h :: rest =>
    match canonicalizeComponent m h with
    | .error e => .error e
    | .ok line =>
      match canonicalizeItems m rest with
      | .error e => .error e
      | .ok restS => .ok (line ++ restS)

/-! ## The verifier state machine (`verifier.Verify`) -/

/-- Result of the candidate-selection loop of `verifier.Verify`
(lines 63–83): a malformed candidate aborts, the first candidate whose
key id resolves is selected (label, parsed parameters, raw value), and
exhaustion means no resolvable key. -/
inductive SelRes where
  | malformed
  | found (sigID : String) (params : signatureParams) (paramsRaw : String)
  | noKey

/-- The candidate-selection loop of `verifier.Verify` over the split
`Signature-Input` parts: split each part at the first `=`, parse the
value, and select the first candidate whose `keyID` resolves
(`ResolveKey` threads the key cache). -/
def selectLoop (v : verifier) : List String → SelRes × verifier
  | [] => (.noKey, v)
  | p :: rest =>
    match goSplitN2 '=' p with
    | [k, val] =>
      match parseSignatureInput val with
      | none => (.malformed, v)
      | some candidate =>
        match v.ResolveKey candidate.keyID with
        | (some _, v') => (.found k candidate val, v')
        | (none, v') => selectLoop v' rest
    | _ => (.malformed, v)

/-- Result of the signature-extraction loop of `verifier.Verify`
(lines 89–101): an entry that does not split as `label=value` aborts;
the first entry whose label matches yields its colon-trimmed value;
exhaustion leaves the signature empty. -/
inductive SigExtract where
  | malformed
  | done (sig : String)
  | notFound
deriving DecidableEq

/-- The signature-extraction loop of `verifier.Verify` over the split
`Signature` parts. -/
def extractLoop (sigID : String) : List String → SigExtract
  | [] => .notFound
  | s :: rest =>
    match goSplitN2 '=' s with
    | [k, val] => if k = sigID then .done (trimColons val) else extractLoop sigID rest
    | _ => .malformed

/-- The key the verifier uses after selection: `ver, _ :=
v.ResolveKey(params.keyID)` ignores the lookup flag, so a (never
reached) miss yields the zero holder. -/
def resolvedHolder (v : verifier) (keyID : String) : verHolder :=
  ((v.ResolveKey keyID).1).getD { alg := "", verify := fun _ _ => false }

/-- The tail of `verifier.Verify` after a candidate has been selected
(lines 89–164): extract the labelled signature value, resolve the key
again, run the algorithm-binding check, base64-decode, rebuild the
signing base with the `"@signature-params"` trailer, run the
cryptographic verification, then the expiry comparison against the
system clock `sysNow` (Go calls `time.Now()` directly here). -/
def verifyAfterSelect (v : verifier) (sysNow : Nat) (msg : message)
    (sigParts : List String) (sigID : String) (params : signatureParams)
    (paramsRaw : String) : (String × Option VError) × verifier :=
  match extractLoop sigID sigParts with
  | .malformed => ((params.keyID, some .errMalformedSignature), v)
  | .notFound => ((params.keyID, some .errMalformedSignature), v)
  | .done sigStr =>
    if sigStr = "" then ((params.keyID, some .errMalformedSignature), v)
    else if (resolvedHolder v params.keyID).alg ≠ "" ∧ params.alg ≠ "" ∧
        (resolvedHolder v params.keyID).alg ≠ params.alg then
      ((params.keyID, some .errAlgMismatch), (v.ResolveKey params.keyID).2)
    else
      match base64Decode sigStr with
      | none =>
        ((params.keyID, some .errMalformedSignature), (v.ResolveKey params.keyID).2)
      | some sig =>
        match canonicalizeItems msg params.items with
        | .error e => ((params.keyID, some e), (v.ResolveKey params.keyID).2)
        | .ok base =>
          if (resolvedHolder v params.keyID).verify
              (base ++ "\"@signature-params\": " ++ paramsRaw) sig then
            match params.expires with
            | some exp =>
              if sysNow < exp then
                ((params.keyID, some .errSignatureExpired), (v.ResolveKey params.keyID).2)
              else ((params.keyID, none), (v.ResolveKey params.keyID).2)
            | none => ((params.keyID, none), (v.ResolveKey params.keyID).2)
          else ((params.keyID, some .errInvalidSignature), (v.ResolveKey params.keyID).2)

/-- Embeds `verifier.Verify` (the full state machine of §4.7).
`sysNow` is the Unix time reported by the ambient system clock
`time.Now()`, which line 160 reads directly — it is distinct from the
injectable `v.nowFunc`. -/
def verifier.Verify (v : verifier) (sysNow : Nat) (msg : message) :
    (String × Option VError) × verifier :=
  if headerGet msg.Header "Signature" = "" then (("", some .errNotSigned), v)
  else if headerGet msg.Header "Signature-Input" = "" then
    (("", some .errNotSigned), v)
  else if (goSplitCommaSpace (headerGet msg.Header "Signature")).length ≠
      (goSplitCommaSpace (headerGet msg.Header "Signature-Input")).length then
    (("", some .errMalformedSignature), v)
  else
    match selectLoop v (goSplitCommaSpace (headerGet msg.Header "Signature-Input")) with
    | (.malformed, v') => (("", some .errMalformedSignature), v')
    | (.noKey, v') => (("", some .errUnknownKey), v')
    | (.found sigID params paramsRaw, v') =>
      verifyAfterSelect v' sysNow msg
        (goSplitCommaSpace (headerGet msg.Header "Signature")) sigID params paramsRaw

/-! ## Public API layer (`httpsig.go`) -/

/-- Embeds `sliceHas` of `httpsig.go`. -/
def sliceHas (haystack : List String) (needle : String) : Bool :=
  haystack.any (fun n => n == needle)

/-- Embeds `defaultHeaders` of `httpsig.go`. -/
def defaultHeaders : List String := ["content-type", "content-length"]

/-- Embeds the header normalization of `NewSigner` (`httpsig.go` lines
43–54): an empty configured list falls back to `defaultHeaders`, then
each of `digest`, `@query`, `@path`, `@method` not already present is
prepended, in that iteration order. -/
def NewSignerHeaders (configured : List String) : List String :=
  let hs := if configured.length = 0 then defaultHeaders else configured
  ["digest", "@query", "@path", "@method"].foldl
    (fun acc comp => if sliceHas acc comp then acc else comp :: acc) hs

/-- An inbound request as seen by the public `Verifier.Verify`: the
message view plus the raw body bytes. -/
structure request where
  msg : message
  body : List Nat

/-- Embeds the public `Verifier.Verify` of `httpsig.go` (lines 114–142):
run the inner signature verification and return its error immediately on
failure; otherwise, when a `Digest` header is set, verify it over the
raw body and report a mismatch as the distinct digest error.
`verifyDigest` abstracts the digest helper (modelled from the spec: the
digest source file is not provided; §6 specifies a body-derived hash
compared against the header value). -/
def Verifier.Verify (v : verifier) (sysNow : Nat)
    (verifyDigest : List Nat → String → Bool) (r : request) :
    (String × Option VError) × verifier :=
  match v.Verify sysNow r.msg with
  | ((keyID, some e), v') => ((keyID, some e), v')
  | ((keyID, none), v') =>
    if headerGet r.msg.Header "Digest" ≠ "" then
      if verifyDigest r.body (headerGet r.msg.Header "Digest") then
        ((keyID, none), v')
      else ((keyID, some .errDigestMismatch), v')
    else ((keyID, none), v')

/-! ## Alteration of non-selected signature values -/

/-- Relation between two split `Signature` header part lists that differ
only in the value component of entries whose label is not the selected
`sigID`: positionally, entries are either identical or both split at the
first `=` into the same non-selected label with arbitrary values. -/
inductive SigAltered (sigID : String) : List String → List String → Prop
  | nil : SigAltered sigID [] []
  | same {l l' : List String} (s : String) :
      SigAltered sigID l l' → SigAltered sigID (s :: l) (s :: l')
  | alter {l l' : List String} (e e' k val val' : String) :
      k ≠ sigID →
      goSplitN2 '=' e = [k, val] →
      goSplitN2 '=' e' = [k, val'] →
      SigAltered sigID l l' → SigAltered sigID (e :: l) (e' :: l')

/-! ## Concrete test vectors -/

/-- A verifying key whose cryptographic check always succeeds, bound to
no algorithm. -/
def trueHolder : verHolder := { alg := "", verify := fun _ _ => true }

/-- A verifying key bound to `hmac-sha256` whose check always succeeds. -/
def hmacHolder : verHolder := { alg := "hmac-sha256", verify := fun _ _ => true }

/-- Verifier with the static key id `k1` and no dynamic resolver. -/
def v0 : verifier :=
  { keys := [("k1", trueHolder)], resolver := none, nowFunc := fun _ => 0 }

/-- Message carrying one signature under key id `k1` expiring at 100. -/
def msg0 : message :=
  { Method := "get", Path := "/", RawQuery := "", Authority := "example.com",
    Header := [("Signature", ["sig1=:aGVsbG8=:"]),
               ("Signature-Input", ["sig1=(\"@method\");keyid=\"k1\";expires=100"])] }

/-- The parameters parsed from the `Signature-Input` value of `msg0`. -/
def params0 : signatureParams :=
  { items := ["@method"], keyID := "k1", alg := "", created := none,
    expires := some 100 }

/-- The raw `Signature-Input` value of `msg0`. -/
def raw0 : String := "(\"@method\");keyid=\"k1\";expires=100"

/-- Verifier with only a dynamic resolver that knows key id `kd`. -/
def vDyn : verifier :=
  { keys := [], resolver := some (fun kid => if kid = "kd" then some (fun _ _ => true) else none),
    nowFunc := fun _ => 0 }

/-- The holder the dynamic resolver produces for `kd`. -/
def hD : verHolder := { alg := "", verify := fun _ _ => true }

/-- The verifier state after `vDyn` resolves `kd`. -/
def vDyn2 : verifier :=
  { keys := [("kd", hD)],
    resolver := some (fun kid => if kid = "kd" then some (fun _ _ => true) else none),
    nowFunc := fun _ => 0 }

/-- A message with no signature headers at all. -/
def msgEmpty : message :=
  { Method := "GET", Path := "/", RawQuery := "", Authority := "example.com",
    Header := [] }

/-- Parameters declaring an arbitrary algorithm for the dynamic key `kd`. -/
def paramsD : signatureParams :=
  { items := ["@method"], keyID := "kd", alg := "ecdsa-p256-sha256",
    created := none, expires := none }

/-- Message whose `Signature` value is valid base64 without the required
colon delimiters. -/
def msgC3 : message :=
  { Method := "get", Path := "/", RawQuery := "", Authority := "example.com",
    Header := [("Signature", ["sig1=YWJj"]),
               ("Signature-Input", ["sig1=(\"@method\");keyid=\"k1\""])] }

/-- Verifier with key id `k2` bound to `hmac-sha256`. -/
def vAlg : verifier :=
  { keys := [("k2", hmacHolder)], resolver := none, nowFunc := fun _ => 0 }

/-- Message declaring `alg="ecdsa-p256-sha256"` for the `hmac-sha256`
key `k2`, with a decodable signature value. -/
def msgAlg : message :=
  { Method := "get", Path := "/", RawQuery := "", Authority := "example.com",
    Header := [("Signature", ["sig1=:YWJj:"]),
               ("Signature-Input",
                ["sig1=(\"@method\");keyid=\"k2\";alg=\"ecdsa-p256-sha256\""])] }

/-- The parameters parsed from the `Signature-Input` value of `msgAlg`. -/
def paramsAlg : signatureParams :=
  { items := ["@method"], keyID := "k2", alg := "ecdsa-p256-sha256",
    created := none, expires := none }

/-- The raw `Signature-Input` value of `msgAlg`. -/
def rawAlg : String := "(\"@method\");keyid=\"k2\";alg=\"ecdsa-p256-sha256\""

/-- Message whose only candidate names the unknown key id `k9`. -/
def msgC7 : message :=
  { Method := "get", Path := "/", RawQuery := "", Authority := "example.com",
    Header := [("Signature", ["sig1=:YWJj:"]),
               ("Signature-Input", ["sig1=(\"@method\");keyid=\"k9\""])] }

/-- Verifier with the static key id `k2` only (for multi-signature
selection). -/
def v4 : verifier :=
  { keys := [("k2", trueHolder)], resolver := none, nowFunc := fun _ => 0 }

/-- Two-signature message: the first candidate's key `k1` is unknown,
the second candidate's key `k2` is registered. -/
def msg4 : message :=
  { Method := "get", Path := "/", RawQuery := "", Authority := "example.com",
    Header := [("Signature", ["sig1=:YWFh:, sig2=:YWJj:"]),
               ("Signature-Input",
                ["sig1=(\"@method\");keyid=\"k1\", sig2=(\"@method\");keyid=\"k2\""])] }

/-- The parameters of the second (selected) candidate of `msg4`. -/
def cand4 : signatureParams :=
  { items := ["@method"], keyID := "k2", alg := "", created := none,
    expires := none }

/-- The raw `Signature-Input` value of the selected candidate of `msg4`. -/
def raw4 : String := "(\"@method\");keyid=\"k2\""

/-- The `Signature` header of `msg4` with the non-selected first value
corrupted. -/
def s4alt : String := "sig1=:eHh4:, sig2=:YWJj:"

/-- A digest verifier that always reports a mismatch. -/
def vdFalse : List Nat → String → Bool := fun _ _ => false

/-- Request with no signature headers but a `Digest` header present. -/
def rC5 : request :=
  { msg := { Method := "GET", Path := "/", RawQuery := "",
             Authority := "example.com",
             Header := [("Digest", ["id-sha256=bogus"])] },
    body := [1, 2, 3] }

/-- Request with a valid signature (under `v0`) and a `Digest` header. -/
def r5 : request :=
  { msg := { Method := "get", Path := "/", RawQuery := "",
             Authority := "example.com",
             Header := [("Signature", ["sig1=:aGVsbG8=:"]),
                        ("Signature-Input", ["sig1=(\"@method\");keyid=\"k1\""]),
                        ("Digest", ["id-sha256=bogus"])] },
    body := [1, 2, 3] }

/-- The parameters parsed from the `Signature-Input` value of `r5`. -/
def params5 : signatureParams :=
  { items := ["@method"], keyID := "k1", alg := "", created := none,
    expires := none }

/-! ## Helper lemmas -/

/-- Unfold `lookupKey` on a cons cell. -/
lemma lookupKey_cons (a : String × verHolder) (as : List (String × verHolder))
    (k : String) :
    lookupKey (a :: as) k = if a.1 == k then some a.2 else lookupKey as k := by
  by_cases hb : a.1 == k
  · simp [lookupKey, List.find?_cons_of_pos, hb]
  · simp [lookupKey, List.find?_cons_of_neg, hb]

/-- A key appended to a cache that misses it is found afterwards. -/
lemma lookupKey_append_single (keys : List (String × verHolder)) (k : String)
    (x : verHolder) (h : lookupKey keys k = none) :
    lookupKey (keys ++ [(k, x)]) k = some x := by
  induction keys with
  | nil => simp [lookupKey, List.find?]
  | cons a as ih =>
    rw [List.cons_append, lookupKey_cons] at *
    by_cases hb : a.1 == k
    · rw [if_pos hb] at h; simp at h
    · rw [if_neg hb] at h ⊢
      exact ih h

/-- A failed key resolution leaves the verifier state (the key cache)
unchanged. -/
lemma resolveKey_fail_state (v : verifier) (keyID : String)
    (h : (v.ResolveKey keyID).1 = none) : v.ResolveKey keyID = (none, v) := by
  cases hl : lookupKey v.keys keyID with
  | some x => simp [verifier.ResolveKey, hl] at h
  | none =>
    cases hr : v.resolver with
    | none => simp [verifier.ResolveKey, hl, hr]
    | some res =>
      cases hk : res keyID with
      | none => simp [verifier.ResolveKey, hl, hr, hk]
      | some kv => simp [verifier.ResolveKey, hl, hr, hk] at h

/-- The errors a single canonicalized component can produce. -/
lemma canonicalizeComponent_error (m : message) (i : String) (e : VError)
    (h : canonicalizeComponent m i = .error e) :
    e = VError.errCanonicalization ∨ e = VError.errComponentNotFound := by
  unfold canonicalizeComponent canonicalizeMethod canonicalizePath
    canonicalizeQuery canonicalizeAuthority canonicalizeHeader at h
  split at h
  · simp at h
  · split at h
    · split at h
      · simp at h
      · simp at h; exact Or.inl h.symm
    · split at h
      · simp at h
      · split at h
        · split at h
          · simp at h; exact Or.inl h.symm
          · simp at h
        · split at h
          · simp at h; exact Or.inr h.symm
          · simp at h

/-- The errors the canonicalization loop can produce. -/
lemma canonicalizeItems_error (m : message) (items : List String) (e : VError)
    (h : canonicalizeItems m items = .error e) :
    e = VError.errCanonicalization ∨ e = VError.errComponentNotFound := by
  induction items with
  | nil => simp [canonicalizeItems] at h
  | cons i rest ih =>
    cases hc : canonicalizeComponent m i with
    | error e' =>
      simp only [canonicalizeItems, hc] at h
      simp at h
      subst h
      exact canonicalizeComponent_error m i e' hc
    | ok line =>
      cases hr : canonicalizeItems m rest with
      | error e' =>
        simp only [canonicalizeItems, hc, hr] at h
        simp at h
        subst h
        exact ih hr
      | ok restS => simp [canonicalizeItems, hc, hr] at h

/-- After selection, no branch of the verifier tail can produce
`errAlgMismatch` once either side of the algorithm binding is empty. -/
lemma verifyAfterSelect_no_algMismatch (v : verifier) (sysNow : Nat)
    (msg : message) (sp : List String) (sigID : String)
    (params : signatureParams) (raw : String)
    (h : (resolvedHolder v params.keyID).alg = "" ∨ params.alg = "") :
    (verifyAfterSelect v sysNow msg sp sigID params raw).1.2 ≠
      some VError.errAlgMismatch := by
  have hC : ¬((resolvedHolder v params.keyID).alg ≠ "" ∧ params.alg ≠ "" ∧
      (resolvedHolder v params.keyID).alg ≠ params.alg) := by
    rcases h with h | h <;> simp [h]
  cases hx : extractLoop sigID sp with
  | malformed => simp [verifyAfterSelect, hx]
  | notFound => simp [verifyAfterSelect, hx]
  | done sigStr =>
    by_cases hs : sigStr = ""
    · simp [verifyAfterSelect, hx, hs]
    · cases hb : base64Decode sigStr with
      | none => simp [verifyAfterSelect, hx, hs, hC, hb]
      | some sig =>
        cases hcan : canonicalizeItems msg params.items with
        | error e =>
          rcases canonicalizeItems_error msg params.items e hcan with he | he <;>
            simp [verifyAfterSelect, hx, hs, hC, hb, hcan, he]
        | ok base =>
          by_cases hv : (resolvedHolder v params.keyID).verify
              (base ++ "\"@signature-params\": " ++ raw) sig = true
          · cases hexp : params.expires with
            | none => simp [verifyAfterSelect, hx, hs, hC, hb, hcan, hv, hexp]
            | some exp =>
              by_cases ht : sysNow < exp
              · simp [verifyAfterSelect, hx, hs, hC, hb, hcan, hv, hexp, ht]
              · simp [verifyAfterSelect, hx, hs, hC, hb, hcan, hv, hexp, ht]
          · simp [verifyAfterSelect, hx, hs, hC, hb, hcan, hv]

/-- The selection loop fails over when every candidate parses but no key
id resolves, leaving the state unchanged. -/
lemma selectLoop_noKey (v : verifier) (parts : List String)
    (hall : ∀ q ∈ parts, ∃ k raw c, goSplitN2 '=' q = [k, raw] ∧
        parseSignatureInput raw = some c ∧ (v.ResolveKey c.keyID).1 = none) :
    selectLoop v parts = (.noKey, v) := by
  induction parts with
  | nil => rfl
  | cons q rest ih =>
    obtain ⟨k, raw, c, h1, h2, h3⟩ := hall q (List.mem_cons_self q rest)
    simp only [selectLoop, h1, h2, resolveKey_fail_state v c.keyID h3]
    exact ih (fun p hp => hall p (List.mem_cons_of_mem q hp))

/-- Membership characterization of `sliceHas`. -/
lemma sliceHas_eq_false (l : List String) (s : String) (h : s ∉ l) :
    sliceHas l s = false := by
  simp only [sliceHas]
  rw [List.any_eq_false]
  intro x hx
  simp only [beq_iff_eq]
  rintro rfl
  exact h hx

/-- Unfold `sliceHas` on a cons cell. -/
lemma sliceHas_cons (a : String) (l : List String) (s : String) :
    sliceHas (a :: l) s = (a == s || sliceHas l s) := by
  simp [sliceHas]

/-- The prepending fold of `NewSigner` only ever adds elements of its
component list in front of the accumulator. -/
lemma foldl_prepend_sub (cs : List String) :
    ∀ acc : List String, ∃ pre : List String,
      cs.foldl (fun acc comp => if sliceHas acc comp then acc else comp :: acc) acc =
        pre ++ acc ∧ ∀ c ∈ pre, c ∈ cs := by
  induction cs with
  | nil => exact fun acc => ⟨[], rfl, by simp⟩
  | cons c cs ih =>
    intro acc
    simp only [List.foldl_cons]
    by_cases hc : sliceHas acc c
    · rw [if_pos hc]
      obtain ⟨pre, hpre, hsub⟩ := ih acc
      exact ⟨pre, hpre, fun x hx => List.mem_cons_of_mem _ (hsub x hx)⟩
    · rw [if_neg hc]
      obtain ⟨pre, hpre, hsub⟩ := ih (c :: acc)
      refine ⟨pre ++ [c], ?_, ?_⟩
      · rw [List.append_assoc, List.singleton_append]
        exact hpre
      · intro x hx
        rcases List.mem_append.mp hx with hx | hx
        · exact List.mem_cons_of_mem _ (hsub x hx)
        · simp only [List.mem_singleton] at hx
          subst hx
          exact List.mem_cons_self _ _

/-- Altering non-selected values preserves the split length. -/
lemma sigAltered_length (sigID : String) (l l' : List String)
    (h : SigAltered sigID l l') : l.length = l'.length := by
  induction h with
  | nil => rfl
  | same s _ ih => simp [ih]
  | alter e e' k val val' _ _ _ _ ih => simp [ih]

/-- The extraction loop is blind to the values of non-selected labels. -/
lemma extractLoop_sigAltered (sigID : String) (l l' : List String)
    (h : SigAltered sigID l l') : extractLoop sigID l = extractLoop sigID l' := by
  induction h with
  | nil => rfl
  | same s _ ih =>
    cases hs : goSplitN2 '=' s with
    | nil => simp [extractLoop, hs]
    | cons a t =>
      cases t with
      | nil => simp [extractLoop, hs]
      | cons b t2 =>
        cases t2 with
        | nil =>
          by_cases hab : a = sigID
          · simp [extractLoop, hs, hab]
          · simp [extractLoop, hs, hab, ih]
        | cons c t3 => simp [extractLoop, hs]
  | alter e e' k val val' hk hse hse' _ ih =>
    simp [extractLoop, hse, hse', hk, ih]

/-- A predicate-respecting filter does not change the first match. -/
lemma find?_filter_of_imp {α : Type} (l : List α) (p q : α → Bool)
    (himp : ∀ x, p x = true → q x = true) :
    (l.filter q).find? p = l.find? p := by
  induction l with
  | nil => rfl
  | cons a as ih =>
    cases hq : q a with
    | true =>
      cases hp : p a with
      | true => simp [List.filter_cons, hq, List.find?_cons, hp]
      | false => simp [List.filter_cons, hq, List.find?_cons, hp, ih]
    | false =>
      cases hp : p a with
      | true => exact absurd (himp a hp) (by simp [hq])
      | false => simp [List.filter_cons, hq, List.find?_cons, hp, ih]

/-- Setting one header leaves lookups of differently-named headers
unchanged. -/
lemma headerValues_setHeader (h : List (String × List String))
    (k val name : String) (hne : lower name ≠ lower k) :
    headerValues (setHeader h k val) name = headerValues h name := by
  unfold headerValues setHeader
  rw [List.find?_cons_of_neg, find?_filter_of_imp]
  · intro x hx
    simp only [beq_iff_eq] at hx
    simp only [Bool.not_eq_eq_eq_not, Bool.not_true, beq_eq_false_iff_ne, ne_eq]
    rw [hx]
    exact hne
  · simp only [beq_iff_eq]
    exact fun hcontra => hne (hcontra ▸ rfl)

/-- `headerGet` of a differently-named header after `setHeader`. -/
lemma headerGet_setHeader_ne (h : List (String × List String))
    (k val name : String) (hne : lower name ≠ lower k) :
    headerGet (setHeader h k val) name = headerGet h name := by
  unfold headerGet
  rw [headerValues_setHeader h k val name hne]

/-- `headerGet` of the header just set. -/
lemma headerGet_setHeader_same (h : List (String × List String))
    (k val : String) : headerGet (setHeader h k val) k = val := by
  unfold headerGet headerValues setHeader
  rw [List.find?_cons_of_pos]
  · rfl
  · simp

/-- Canonicalizing any component other than the `Signature` header is
unaffected by replacing the `Signature` header value. -/
lemma canonicalizeComponent_setHeader (m : message) (s' i : String)
    (hi : lower i ≠ "signature") :
    canonicalizeComponent { m with Header := setHeader m.Header "Signature" s' } i =
      canonicalizeComponent m i := by
  unfold canonicalizeComponent
  by_cases h1 : i = "@method"
  · simp [h1]
  by_cases h2 : i = "@path"
  · simp [h1, h2]
  by_cases h3 : i = "@query"
  · simp [h1, h2, h3]
  by_cases h4 : i = "@authority"
  · simp [h1, h2, h3, h4]
  simp only [h1, h2, h3, h4, if_false]
  unfold canonicalizeHeader
  rw [headerValues_setHeader m.Header "Signature" s' i]
  exact fun hcontra => hi hcontra

/-- The whole signing base is unaffected by replacing the `Signature`
header value, provided the covered components do not include the
`signature` header itself. -/
lemma canonicalizeItems_setHeader (m : message) (s' : String)
    (items : List String) (h : ∀ i ∈ items, lower i ≠ "signature") :
    canonicalizeItems { m with Header := setHeader m.Header "Signature" s' } items =
      canonicalizeItems m items := by
  induction items with
  | nil => rfl
  | cons i rest ih =>
    simp only [canonicalizeItems]
    rw [canonicalizeComponent_setHeader m s' i (h i (List.mem_cons_self i rest)),
      ih (fun j hj => h j (List.mem_cons_of_mem i hj))]

/-- The verifier tail only depends on the split `Signature` parts through
the extraction result and on the message through the signing base. -/
lemma verifyAfterSelect_congr (v : verifier) (sysNow : Nat)
    (msg msg' : message) (sp sp' : List String) (sigID : String)
    (params : signatureParams) (raw : String)
    (hx : extractLoop sigID sp = extractLoop sigID sp')
    (hc : canonicalizeItems msg params.items = canonicalizeItems msg' params.items) :
    verifyAfterSelect v sysNow msg sp sigID params raw =
      verifyAfterSelect v sysNow msg' sp' sigID params raw := by
  unfold verifyAfterSelect
  rw [hx, hc]

/-- Unfolding `verifier.Verify` to its tail once a candidate has been
selected. -/
lemma verify_reaches_select (v v₁ : verifier) (sysNow : Nat) (msg : message)
    (sigID : String) (params : signatureParams) (raw : String)
    (h1 : headerGet msg.Header "Signature" ≠ "")
    (h2 : headerGet msg.Header "Signature-Input" ≠ "")
    (h3 : (goSplitCommaSpace (headerGet msg.Header "Signature")).length =
        (goSplitCommaSpace (headerGet msg.Header "Signature-Input")).length)
    (h4 : selectLoop v (goSplitCommaSpace (headerGet msg.Header "Signature-Input")) =
        (.found sigID params raw, v₁)) :
    verifier.Verify v sysNow msg = verifyAfterSelect v₁ sysNow msg
      (goSplitCommaSpace (headerGet msg.Header "Signature")) sigID params raw := by
  unfold verifier.Verify
  rw [if_neg h1, if_neg h2, if_neg (fun hne => hne h3), h4]

/-- Key resolution ignores the injected clock, and only threads it
through the state. -/
lemma resolveKey_nowFunc (v : verifier) (f : Unit → Nat) (kid : String) :
    verifier.ResolveKey { v with nowFunc := f } kid =
      ((v.ResolveKey kid).1, { (v.ResolveKey kid).2 with nowFunc := f }) := by
  cases hl : lookupKey v.keys kid with
  | some x => simp [verifier.ResolveKey, hl]
  | none =>
    cases hr : v.resolver with
    | none => simp [verifier.ResolveKey, hl, hr]
    | some res =>
      cases hk : res kid with
      | none => simp [verifier.ResolveKey, hl, hr, hk]
      | some kv => simp [verifier.ResolveKey, hl, hr, hk]

/-- Candidate selection ignores the injected clock. -/
lemma selectLoop_nowFunc (f : Unit → Nat) (parts : List String) :
    ∀ v : verifier, selectLoop { v with nowFunc := f } parts =
      ((selectLoop v parts).1, { (selectLoop v parts).2 with nowFunc := f }) := by
  induction parts with
  | nil => intro v; rfl
  | cons q rest ih =>
    intro v
    cases hs : goSplitN2 '=' q with
    | nil => simp [selectLoop, hs]
    | cons a t =>
      cases t with
      | nil => simp [selectLoop, hs]
      | cons b t2 =>
        cases t2 with
        | cons c t3 => simp [selectLoop, hs]
        | nil =>
          cases hp : parseSignatureInput b with
          | none => simp [selectLoop, hs, hp]
          | some cand =>
            rcases hres : v.ResolveKey cand.keyID with ⟨ro, v2⟩
            cases ro with
            | some hh => simp [selectLoop, hs, hp, resolveKey_nowFunc, hres]
            | none => simp [selectLoop, hs, hp, resolveKey_nowFunc, hres, ih]

/-- The verifier tail ignores the injected clock in its outcome. -/
lemma verifyAfterSelect_nowFunc (f : Unit → Nat) (v : verifier) (sysNow : Nat)
    (msg : message) (sp : List String) (sigID : String)
    (params : signatureParams) (raw : String) :
    (verifyAfterSelect { v with nowFunc := f } sysNow msg sp sigID params raw).1 =
      (verifyAfterSelect v sysNow msg sp sigID params raw).1 := by
  have hrh : resolvedHolder { v with nowFunc := f } params.keyID =
      resolvedHolder v params.keyID := by
    simp [resolvedHolder, resolveKey_nowFunc]
  cases hx : extractLoop sigID sp with
  | malformed => simp [verifyAfterSelect, hx]
  | notFound => simp [verifyAfterSelect, hx]
  | done sigStr =>
    by_cases hs : sigStr = ""
    · simp [verifyAfterSelect, hx, hs]
    · by_cases hC : (resolvedHolder v params.keyID).alg ≠ "" ∧ params.alg ≠ "" ∧
          (resolvedHolder v params.keyID).alg ≠ params.alg
      · simp [verifyAfterSelect, hx, hs, hC, hrh]
      · cases hb : base64Decode sigStr with
        | none => simp [verifyAfterSelect, hx, hs, hC, hb, hrh]
        | some sig =>
          cases hcan : canonicalizeItems msg params.items with
          | error e => simp [verifyAfterSelect, hx, hs, hC, hb, hcan, hrh]
          | ok base =>
            by_cases hv : (resolvedHolder v params.keyID).verify
                (base ++ "\"@signature-params\": " ++ raw) sig = true
            · cases hexp : params.expires with
              | none => simp [verifyAfterSelect, hx, hs, hC, hb, hcan, hv, hexp, hrh]
              | some exp =>
                by_cases ht : sysNow < exp
                · simp [verifyAfterSelect, hx, hs, hC, hb, hcan, hv, hexp, ht, hrh]
                · simp [verifyAfterSelect, hx, hs, hC, hb, hcan, hv, hexp, ht, hrh]
            · simp [verifyAfterSelect, hx, hs, hC, hb, hcan, hv, hrh]

/-- The verification outcome ignores the injected clock. -/
lemma verify_nowFunc (f : Unit → Nat) (v : verifier) (sysNow : Nat)
    (msg : message) :
    (verifier.Verify { v with nowFunc := f } sysNow msg).1 =
      (verifier.Verify v sysNow msg).1 := by
  unfold verifier.Verify
  by_cases h1 : headerGet msg.Header "Signature" = ""
  · simp [h1]
  by_cases h2 : headerGet msg.Header "Signature-Input" = ""
  · simp [h1, h2]
  by_cases h3 : (goSplitCommaSpace (headerGet msg.Header "Signature")).length ≠
      (goSplitCommaSpace (headerGet msg.Header "Signature-Input")).length
  · simp [h1, h2, h3]
  · simp only [if_neg h1, if_neg h2, if_neg h3]
    cases hsel : selectLoop v (goSplitCommaSpace (headerGet msg.Header "Signature-Input")) with
    | mk r v2 =>
      rw [selectLoop_nowFunc, hsel]
      cases r with
      | malformed => rfl
      | noKey => rfl
      | found sigID params raw =>
        exact verifyAfterSelect_nowFunc f v2 sysNow msg _ sigID params raw

/-- The selection loop commits to the first candidate whose key id
resolves, regardless of what follows it. -/
lemma selectLoop_first_match (v : verifier) (pre : List String) (p : String)
    (post : List String) (k rawp : String) (cand : signatureParams)
    (hpre : ∀ q ∈ pre, ∃ k' raw' c', goSplitN2 '=' q = [k', raw'] ∧
        parseSignatureInput raw' = some c' ∧ (v.ResolveKey c'.keyID).1 = none)
    (hsplit : goSplitN2 '=' p = [k, rawp])
    (hparse : parseSignatureInput rawp = some cand)
    (hres : (v.ResolveKey cand.keyID).1.isSome = true) :
    selectLoop v (pre ++ p :: post) =
      (SelRes.found k cand rawp, (v.ResolveKey cand.keyID).2) := by
  induction pre with
  | nil =>
    simp only [List.nil_append, selectLoop, hsplit, hparse]
    rcases hr : v.ResolveKey cand.keyID with ⟨ro, v2⟩
    cases ro with
    | some hh => rfl
    | none => rw [hr] at hres; simp at hres
  | cons q pre2 ih =>
    obtain ⟨k', raw', c', hq1, hq2, hq3⟩ := hpre q (List.mem_cons_self q pre2)
    simp only [List.cons_append, selectLoop, hq1, hq2,
      resolveKey_fail_state v c'.keyID hq3]
    exact ih (fun x hx => hpre x (List.mem_cons_of_mem q hx))

/-- Altering the `Signature` values of non-selected labels does not
change the verification outcome. -/
lemma verify_sigAltered (v v₁ : verifier) (sysNow : Nat) (msg : message)
    (sigID : String) (params : signatureParams) (raw s' : String)
    (h1 : headerGet msg.Header "Signature" ≠ "")
    (h2 : s' ≠ "")
    (h3 : headerGet msg.Header "Signature-Input" ≠ "")
    (halt : SigAltered sigID (goSplitCommaSpace (headerGet msg.Header "Signature"))
        (goSplitCommaSpace s'))
    (hsel : selectLoop v (goSplitCommaSpace (headerGet msg.Header "Signature-Input")) =
        (.found sigID params raw, v₁))
    (hitems : ∀ i ∈ params.items, lower i ≠ "signature") :
    verifier.Verify v sysNow msg =
      verifier.Verify v sysNow
        { msg with Header := setHeader msg.Header "Signature" s' } := by
  have hsig : headerGet ({ msg with
      Header := setHeader msg.Header "Signature" s' }).Header "Signature" = s' :=
    headerGet_setHeader_same msg.Header "Signature" s'
  have hinp : headerGet ({ msg with
      Header := setHeader msg.Header "Signature" s' }).Header "Signature-Input" =
      headerGet msg.Header "Signature-Input" :=
    headerGet_setHeader_ne msg.Header "Signature" s' "Signature-Input" (by decide)
  have hlen := sigAltered_length sigID _ _ halt
  unfold verifier.Verify
  rw [hsig, hinp, if_neg h1, if_neg h2, if_neg h3, if_neg h3]
  by_cases hl : (goSplitCommaSpace (headerGet msg.Header "Signature")).length ≠
      (goSplitCommaSpace (headerGet msg.Header "Signature-Input")).length
  · rw [if_pos hl, if_pos (by rw [← hlen]; exact hl)]
  · rw [if_neg hl, if_neg (by rw [← hlen]; exact hl), hsel]
    exact verifyAfterSelect_congr v₁ sysNow msg _ _ _ sigID params raw
      (extractLoop_sigAltered sigID _ _ halt)
      (canonicalizeItems_setHeader msg s' params.items hitems).symm

/-! ## Claim theorems -/

/-- C1: in a verification attempt where the signature cryptographically
verifies (all steps up to and including the cryptographic check succeed),
the outcome is decided by the expiry comparison alone: a parsed `expires`
timestamp strictly after the current system time makes `verifier.Verify`
return `errSignatureExpired` together with the resolved key id, while an
absent or non-future `expires` passes the check and `Verify` returns the
resolved key id with no error — the reference behavior rejects exactly
when `expires` is still in the future. -/
theorem verify_expiry_polarity (v v₁ : verifier) (sysNow : Nat) (msg : message)
    (sigID : String) (params : signatureParams) (raw sigStr base : String)
    (sig : List Nat)
    (h1 : headerGet msg.Header "Signature" ≠ "")
    (h2 : headerGet msg.Header "Signature-Input" ≠ "")
    (h3 : (goSplitCommaSpace (headerGet msg.Header "Signature")).length =
        (goSplitCommaSpace (headerGet msg.Header "Signature-Input")).length)
    (h4 : selectLoop v (goSplitCommaSpace (headerGet msg.Header "Signature-Input")) =
        (.found sigID params raw, v₁))
    (h5 : extractLoop sigID (goSplitCommaSpace (headerGet msg.Header "Signature")) =
        .done sigStr)
    (h6 : sigStr ≠ "")
    (h7 : ¬((resolvedHolder v₁ params.keyID).alg ≠ "" ∧ params.alg ≠ "" ∧
        (resolvedHolder v₁ params.keyID).alg ≠ params.alg))
    (h8 : base64Decode sigStr = some sig)
    (h9 : canonicalizeItems msg params.items = .ok base)
    (h10 : (resolvedHolder v₁ params.keyID).verify
        (base ++ "\"@signature-params\": " ++ raw) sig = true) :
    (verifier.Verify v sysNow msg).1 =
      (params.keyID,
        match params.expires with
        | some exp => if sysNow < exp then some VError.errSignatureExpired else none
        | none => none) := by
  rw [verify_reaches_select v v₁ sysNow msg sigID params raw h1 h2 h3 h4]
  cases hexp : params.expires with
  | none => simp [verifyAfterSelect, h5, h6, h7, h8, h9, h10, hexp]
  | some exp =>
    by_cases ht : sysNow < exp
    · simp [verifyAfterSelect, h5, h6, h7, h8, h9, h10, hexp, ht]
    · simp [verifyAfterSelect, h5, h6, h7, h8, h9, h10, hexp, ht]

/-- Witness for C1: at system time 20 the declared expiry 100 is still
in the future and the message is rejected as expired; at system time 200
the same message verifies with no error. -/
theorem verify_expiry_polarity_witness :
    (verifier.Verify v0 20 msg0).1 = ("k1", some VError.errSignatureExpired) ∧
    (verifier.Verify v0 200 msg0).1 = ("k1", none) := by
  constructor
  · exact verify_expiry_polarity v0 v0 20 msg0 "sig1" params0 raw0 "aGVsbG8="
      "\"@method\": GET\n" [104, 101, 108, 108, 111]
      (by decide) (by decide) (by decide) rfl rfl (by decide) (by decide)
      rfl rfl rfl
  · exact verify_expiry_polarity v0 v0 200 msg0 "sig1" params0 raw0 "aGVsbG8="
      "\"@method\": GET\n" [104, 101, 108, 108, 111]
      (by decide) (by decide) (by decide) rfl rfl (by decide) (by decide)
      rfl rfl rfl

/-- C2: a key entry created by `verifier.ResolveKey` from the dynamic
resolver is cached with an empty bound algorithm string; consequently,
for a key id satisfied only by the dynamic resolver, the
algorithm-mismatch check never fires — whatever `alg` the document
declares, the verifier tail never returns `errAlgMismatch` and proceeds
to cryptographic verification. -/
theorem resolved_key_unbound_alg (v : verifier) (keyID : String)
    (h : verHolder) (v' : verifier)
    (hstatic : lookupKey v.keys keyID = none)
    (hres : v.ResolveKey keyID = (some h, v')) :
    h.alg = "" ∧ lookupKey v'.keys keyID = some h ∧
    ∀ (sysNow : Nat) (msg : message) (sigParts : List String) (sigID : String)
      (params : signatureParams) (paramsRaw : String),
      params.keyID = keyID →
      (verifyAfterSelect v' sysNow msg sigParts sigID params paramsRaw).1.2 ≠
        some VError.errAlgMismatch := by
  cases hr : v.resolver with
  | none => simp [verifier.ResolveKey, hstatic, hr] at hres
  | some res =>
    cases hk : res keyID with
    | none => simp [verifier.ResolveKey, hstatic, hr, hk] at hres
    | some kv =>
      simp only [verifier.ResolveKey, hstatic, hr, hk, Prod.mk.injEq,
        Option.some.injEq] at hres
      obtain ⟨hh, hv⟩ := hres
      subst hh
      subst hv
      refine ⟨rfl, lookupKey_append_single v.keys keyID _ hstatic, ?_⟩
      intro sysNow msg sigParts sigID params paramsRaw hkid
      apply verifyAfterSelect_no_algMismatch
      left
      rw [hkid]
      simp [resolvedHolder, verifier.ResolveKey,
        lookupKey_append_single v.keys keyID _ hstatic]

/-- Witness for C2: the dynamic key `kd` is cached with an unbound
algorithm, and a document declaring `alg="ecdsa-p256-sha256"` for it does
not produce an algorithm mismatch. -/
theorem resolved_key_unbound_alg_witness :
    hD.alg = "" ∧ lookupKey vDyn2.keys "kd" = some hD ∧
    (verifyAfterSelect vDyn2 0 msgEmpty ["sigd=:YWJj:"] "sigd" paramsD
      "(\"@method\");keyid=\"kd\";alg=\"ecdsa-p256-sha256\"").1.2 ≠
      some VError.errAlgMismatch := by
  have h := resolved_key_unbound_alg vDyn "kd" hD vDyn2 rfl rfl
  exact ⟨h.1, h.2.1, h.2.2 0 msgEmpty ["sigd=:YWJj:"] "sigd" paramsD
    "(\"@method\");keyid=\"kd\";alg=\"ecdsa-p256-sha256\"" rfl⟩

/-- C3 (code bug): the `Signature` value paired with the selected label
is `sig1=YWJj` — valid base64 that is not delimited by colons — yet
`verifier.Verify` does not fail with `errMalformedSignature`: extraction
trims optional colons and accepts the value, and verification proceeds
to success. The specification (and the code's own TODO at the trim site)
requires rejecting values not delimited as an opaque byte string. -/
theorem verify_accepts_undelimited_signature :
    headerGet msgC3.Header "Signature" = "sig1=YWJj" ∧
    (verifier.Verify v0 0 msgC3).1 = ("k1", none) := ⟨rfl, rfl⟩

/-- C4: candidates are examined in header order and the first whose key
id resolves is selected — later candidates are never attempted, so the
selection result is invariant under replacing everything after the
selected entry; and the full verification outcome is unchanged when the
`Signature` values paired with non-selected labels are arbitrarily
altered. -/
theorem verify_first_resolvable_selected :
    (∀ (v : verifier) (pre : List String) (p : String) (post post2 : List String)
        (k rawp : String) (cand : signatureParams),
      (∀ q ∈ pre, ∃ k' raw' c', goSplitN2 '=' q = [k', raw'] ∧
          parseSignatureInput raw' = some c' ∧ (v.ResolveKey c'.keyID).1 = none) →
      goSplitN2 '=' p = [k, rawp] →
      parseSignatureInput rawp = some cand →
      (v.ResolveKey cand.keyID).1.isSome = true →
      (selectLoop v (pre ++ p :: post)).1 = SelRes.found k cand rawp ∧
      selectLoop v (pre ++ p :: post) = selectLoop v (pre ++ p :: post2)) ∧
    (∀ (v v₁ : verifier) (sysNow : Nat) (msg : message) (sigID : String)
        (params : signatureParams) (raw s2 : String),
      headerGet msg.Header "Signature" ≠ "" →
      s2 ≠ "" →
      headerGet msg.Header "Signature-Input" ≠ "" →
      SigAltered sigID (goSplitCommaSpace (headerGet msg.Header "Signature"))
        (goSplitCommaSpace s2) →
      selectLoop v (goSplitCommaSpace (headerGet msg.Header "Signature-Input")) =
        (.found sigID params raw, v₁) →
      (∀ i ∈ params.items, lower i ≠ "signature") →
      verifier.Verify v sysNow msg =
        verifier.Verify v sysNow
          { msg with Header := setHeader msg.Header "Signature" s2 }) := by
  constructor
  · intro v pre p post post2 k rawp cand hpre hsplit hparse hres
    constructor
    · rw [selectLoop_first_match v pre p post k rawp cand hpre hsplit hparse hres]
    · rw [selectLoop_first_match v pre p post k rawp cand hpre hsplit hparse hres,
        selectLoop_first_match v pre p post2 k rawp cand hpre hsplit hparse hres]
  · intro v v₁ sysNow msg sigID params raw s2 h1 h2 h3 halt hsel hitems
    exact verify_sigAltered v v₁ sysNow msg sigID params raw s2 h1 h2 h3 halt
      hsel hitems

/-- Witness for C4: with only `k2` registered, selection skips the first
candidate (key `k1`), picks the second, is blind to anything after it,
and corrupting the first label's signature bytes leaves the whole
verification outcome unchanged. -/
theorem verify_first_resolvable_selected_witness :
    ((selectLoop v4
        ["sig1=(\"@method\");keyid=\"k1\"", "sig2=(\"@method\");keyid=\"k2\""]).1 =
      SelRes.found "sig2" cand4 raw4 ∧
     selectLoop v4
        ["sig1=(\"@method\");keyid=\"k1\"", "sig2=(\"@method\");keyid=\"k2\""] =
      selectLoop v4
        ["sig1=(\"@method\");keyid=\"k1\"", "sig2=(\"@method\");keyid=\"k2\"",
         "junk"]) ∧
    verifier.Verify v4 0 msg4 =
      verifier.Verify v4 0
        { msg4 with Header := setHeader msg4.Header "Signature" s4alt } := by
  constructor
  · exact verify_first_resolvable_selected.1 v4
      ["sig1=(\"@method\");keyid=\"k1\""] "sig2=(\"@method\");keyid=\"k2\""
      [] ["junk"] "sig2" raw4 cand4
      (fun q hq => by
        have he : q = "sig1=(\"@method\");keyid=\"k1\"" := List.mem_singleton.mp hq
        subst he
        exact ⟨"sig1", "(\"@method\");keyid=\"k1\"",
          ⟨["@method"], "k1", "", none, none⟩, rfl, rfl, rfl⟩)
      rfl rfl rfl
  · exact verify_first_resolvable_selected.2 v4 v4 0 msg4 "sig2" cand4 raw4 s4alt
      (by decide) (by decide) (by decide)
      (SigAltered.alter "sig1=:YWFh:" "sig1=:eHh4:" "sig1" ":YWFh:" ":eHh4:"
        (by decide) rfl rfl
        (SigAltered.same "sig2=:YWJj:" SigAltered.nil))
      rfl (by decide)

/-- C5 counterexample: a request with no signature headers but a failing
`Digest` never surfaces a digest error — the public `Verifier.Verify`
returns the signature error alone, so digest verification is not
performed and reported independently of the signature outcome. -/
theorem verifier_digest_not_independent :
    headerGet rC5.msg.Header "Digest" ≠ "" ∧
    vdFalse rC5.body (headerGet rC5.msg.Header "Digest") = false ∧
    (Verifier.Verify v0 0 vdFalse rC5).1 = ("", some VError.errNotSigned) :=
  ⟨by decide, rfl, rfl⟩

/-- C5 amended: digest verification runs only after signature
verification succeeds — a signature failure is returned as-is, with the
digest unexamined; when signature verification succeeds and a `Digest`
header is present, a digest failure surfaces as the distinct
`errDigestMismatch`. -/
theorem verifier_digest_after_signature :
    (∀ (v : verifier) (sysNow : Nat) (vd : List Nat → String → Bool)
        (r : request) (keyID : String) (e : VError) (v' : verifier),
      verifier.Verify v sysNow r.msg = ((keyID, some e), v') →
      Verifier.Verify v sysNow vd r = ((keyID, some e), v')) ∧
    (∀ (v : verifier) (sysNow : Nat) (vd : List Nat → String → Bool)
        (r : request) (keyID : String) (v' : verifier),
      verifier.Verify v sysNow r.msg = ((keyID, none), v') →
      (Verifier.Verify v sysNow vd r).1 =
        (keyID,
          if headerGet r.msg.Header "Digest" ≠ "" ∧
              vd r.body (headerGet r.msg.Header "Digest") = false
          then some VError.errDigestMismatch else none)) := by
  constructor
  · intro v sysNow vd r keyID e v' h
    simp [Verifier.Verify, h]
  · intro v sysNow vd r keyID v' h
    by_cases hd : headerGet r.msg.Header "Digest" ≠ ""
    · cases hvd : vd r.body (headerGet r.msg.Header "Digest") with
      | true => simp [Verifier.Verify, h, hd, hvd]
      | false => simp [Verifier.Verify, h, hd, hvd]
    · rw [not_not] at hd
      simp [Verifier.Verify, h, hd]

/-- Witness for C5 (amended): the signature error passes through
untouched on `rC5`, and on `r5` (valid signature, failing digest) the
distinct digest-mismatch error is reported. -/
theorem verifier_digest_after_signature_witness :
    Verifier.Verify v0 0 vdFalse rC5 = (("", some VError.errNotSigned), v0) ∧
    (Verifier.Verify v0 0 vdFalse r5).1 = ("k1", some VError.errDigestMismatch) := by
  constructor
  · exact verifier_digest_after_signature.1 v0 0 vdFalse rC5 ""
      VError.errNotSigned v0 rfl
  · exact (verifier_digest_after_signature.2 v0 0 vdFalse r5 "k1" v0 rfl).trans
      (by decide)

/-- C6: if the resolved key's bound algorithm and the declared `alg` are
both non-empty and differ, `verifier.Verify` returns `errAlgMismatch`
(for every signature value and verifying function, hence before base64
decoding and before any cryptographic verification); if either of the
two is absent, no outcome of `Verify` is `errAlgMismatch`. -/
theorem verify_alg_mismatch :
    (∀ (v v₁ : verifier) (sysNow : Nat) (msg : message) (sigID : String)
        (params : signatureParams) (raw sigStr : String),
      headerGet msg.Header "Signature" ≠ "" →
      headerGet msg.Header "Signature-Input" ≠ "" →
      (goSplitCommaSpace (headerGet msg.Header "Signature")).length =
        (goSplitCommaSpace (headerGet msg.Header "Signature-Input")).length →
      selectLoop v (goSplitCommaSpace (headerGet msg.Header "Signature-Input")) =
        (.found sigID params raw, v₁) →
      extractLoop sigID (goSplitCommaSpace (headerGet msg.Header "Signature")) =
        .done sigStr →
      sigStr ≠ "" →
      (resolvedHolder v₁ params.keyID).alg ≠ "" →
      params.alg ≠ "" →
      (resolvedHolder v₁ params.keyID).alg ≠ params.alg →
      (verifier.Verify v sysNow msg).1 =
        (params.keyID, some VError.errAlgMismatch)) ∧
    (∀ (v v₁ : verifier) (sysNow : Nat) (msg : message) (sigID : String)
        (params : signatureParams) (raw : String),
      headerGet msg.Header "Signature" ≠ "" →
      headerGet msg.Header "Signature-Input" ≠ "" →
      (goSplitCommaSpace (headerGet msg.Header "Signature")).length =
        (goSplitCommaSpace (headerGet msg.Header "Signature-Input")).length →
      selectLoop v (goSplitCommaSpace (headerGet msg.Header "Signature-Input")) =
        (.found sigID params raw, v₁) →
      ((resolvedHolder v₁ params.keyID).alg = "" ∨ params.alg = "") →
      (verifier.Verify v sysNow msg).1.2 ≠ some VError.errAlgMismatch) := by
  constructor
  · intro v v₁ sysNow msg sigID params raw sigStr h1 h2 h3 h4 h5 h6 ha1 ha2 ha3
    rw [verify_reaches_select v v₁ sysNow msg sigID params raw h1 h2 h3 h4]
    simp [verifyAfterSelect, h5, h6, ha1, ha2, ha3]
  · intro v v₁ sysNow msg sigID params raw h1 h2 h3 h4 hdisj
    rw [verify_reaches_select v v₁ sysNow msg sigID params raw h1 h2 h3 h4]
    exact verifyAfterSelect_no_algMismatch v₁ sysNow msg _ sigID params raw hdisj

/-- Witness for C6: the key `k2` bound to `hmac-sha256` presented with
`alg="ecdsa-p256-sha256"` and a decodable signature yields
`errAlgMismatch`; with an unbound key, no algorithm mismatch arises. -/
theorem verify_alg_mismatch_witness :
    (verifier.Verify vAlg 0 msgAlg).1 = ("k2", some VError.errAlgMismatch) ∧
    (verifier.Verify v0 300 msg0).1.2 ≠ some VError.errAlgMismatch := by
  constructor
  · exact verify_alg_mismatch.1 vAlg vAlg 0 msgAlg "sig1" paramsAlg rawAlg "YWJj"
      (by decide) (by decide) (by decide) rfl rfl (by decide) (by decide)
      (by decide) (by decide)
  · exact verify_alg_mismatch.2 v0 v0 300 msg0 "sig1" params0 raw0
      (by decide) (by decide) (by decide) rfl (Or.inl rfl)

/-- C7: a key id that is neither statically registered nor produced by
the dynamic resolver fails resolution with the key cache (the whole
verifier state) unchanged — so the failure is not cached and a later
call re-queries the resolver; and when no candidate key id of the
document resolves, `verifier.Verify` returns `errUnknownKey`. -/
theorem unresolvable_key_not_cached :
    (∀ (v : verifier) (keyID : String),
      lookupKey v.keys keyID = none →
      (∀ res, v.resolver = some res → res keyID = none) →
      v.ResolveKey keyID = (none, v)) ∧
    (∀ (v : verifier) (sysNow : Nat) (msg : message),
      headerGet msg.Header "Signature" ≠ "" →
      headerGet msg.Header "Signature-Input" ≠ "" →
      (goSplitCommaSpace (headerGet msg.Header "Signature")).length =
        (goSplitCommaSpace (headerGet msg.Header "Signature-Input")).length →
      (∀ q ∈ goSplitCommaSpace (headerGet msg.Header "Signature-Input"),
        ∃ k raw c, goSplitN2 '=' q = [k, raw] ∧ parseSignatureInput raw = some c ∧
          (v.ResolveKey c.keyID).1 = none) →
      (verifier.Verify v sysNow msg).1 = ("", some VError.errUnknownKey)) := by
  constructor
  · intro v keyID hstatic hres
    cases hr : v.resolver with
    | none => simp [verifier.ResolveKey, hstatic, hr]
    | some res => simp [verifier.ResolveKey, hstatic, hr, hres res hr]
  · intro v sysNow msg h1 h2 h3 hall
    unfold verifier.Verify
    rw [if_neg h1, if_neg h2, if_neg (fun hne => hne h3),
      selectLoop_noKey v _ hall]

/-- Witness for C7: the unknown key id `k9` fails resolution on `vDyn`
without touching its state, and a document naming only `k9` is rejected
with `errUnknownKey`. -/
theorem unresolvable_key_not_cached_witness :
    vDyn.ResolveKey "k9" = (none, vDyn) ∧
    (verifier.Verify v0 0 msgC7).1 = ("", some VError.errUnknownKey) := by
  constructor
  · exact unresolvable_key_not_cached.1 vDyn "k9" rfl
      (fun res hres => by
        have he : (fun kid => if kid = "kd" then
            some (fun _ _ => true : String → List Nat → Bool) else none) = res :=
          Option.some.inj hres
        rw [← he]
        rfl)
  · exact unresolvable_key_not_cached.2 v0 0 msgC7 (by decide) (by decide)
      (by decide)
      (fun q hq => by
        have he : goSplitCommaSpace (headerGet msgC7.Header "Signature-Input") =
            ["sig1=(\"@method\");keyid=\"k9\""] := rfl
        rw [he, List.mem_singleton] at hq
        subst hq
        exact ⟨"sig1", "(\"@method\");keyid=\"k9\"",
          ⟨["@method"], "k9", "", none, none⟩, rfl, rfl, rfl⟩)

/-- C8: `NewSigner` prepends each of `digest`, `@query`, `@path`,
`@method` not already configured ahead of the user-specified headers: if
none of the four was user-specified the final list begins with
`@method, @path, @query, digest`, followed by the user headers in their
original order; in general the result is always the untouched user list
preceded by some selection of the four. -/
theorem signer_headers_prepended :
    (∀ hdrs : List String, hdrs ≠ [] →
      "digest" ∉ hdrs → "@query" ∉ hdrs → "@path" ∉ hdrs → "@method" ∉ hdrs →
      NewSignerHeaders hdrs = ["@method", "@path", "@query", "digest"] ++ hdrs) ∧
    (∀ hdrs : List String, hdrs ≠ [] →
      ∃ pre, NewSignerHeaders hdrs = pre ++ hdrs ∧
        ∀ c ∈ pre, c ∈ (["digest", "@query", "@path", "@method"] : List String)) := by
  constructor
  · intro hdrs hne h1 h2 h3 h4
    have hlen : ¬(hdrs.length = 0) := fun h => hne (List.length_eq_zero.mp h)
    have s1 : sliceHas hdrs "digest" = false := sliceHas_eq_false hdrs _ h1
    have s2 : sliceHas ("digest" :: hdrs) "@query" = false := by
      rw [sliceHas_cons, sliceHas_eq_false hdrs _ h2]
      rfl
    have s3 : sliceHas ("@query" :: "digest" :: hdrs) "@path" = false := by
      rw [sliceHas_cons, sliceHas_cons, sliceHas_eq_false hdrs _ h3]
      rfl
    have s4 : sliceHas ("@path" :: "@query" :: "digest" :: hdrs) "@method" = false := by
      rw [sliceHas_cons, sliceHas_cons, sliceHas_cons, sliceHas_eq_false hdrs _ h4]
      rfl
    simp [NewSignerHeaders, hlen, s1, s2, s3, s4]
  · intro hdrs hne
    have hlen : ¬(hdrs.length = 0) := fun h => hne (List.length_eq_zero.mp h)
    obtain ⟨pre, hpre, hsub⟩ :=
      foldl_prepend_sub ["digest", "@query", "@path", "@method"] hdrs
    refine ⟨pre, ?_, hsub⟩
    simp only [NewSignerHeaders, if_neg hlen]
    exact hpre

/-- Witness for C8: the default-style header list gains the four
specialty components in the documented order, and a one-element list is
extended only by a prefix drawn from the four. -/
theorem signer_headers_prepended_witness :
    NewSignerHeaders ["content-type", "content-length"] =
      ["@method", "@path", "@query", "digest", "content-type", "content-length"] ∧
    ∃ pre, NewSignerHeaders ["host"] = pre ++ ["host"] ∧
      ∀ c ∈ pre, c ∈ (["digest", "@query", "@path", "@method"] : List String) := by
  constructor
  · exact signer_headers_prepended.1 ["content-type", "content-length"]
      (by decide) (by decide) (by decide) (by decide) (by decide)
  · exact signer_headers_prepended.2 ["host"] (by decide)

/-- C9: the outcome of `verifier.Verify` (returned key id and error) is
identical across any two verifier configurations that differ only in the
injected `nowFunc` clock — the expiry comparison reads the ambient
system time, never the injectable clock. -/
theorem verify_nowFunc_independent (v : verifier) (f₁ f₂ : Unit → Nat)
    (sysNow : Nat) (msg : message) :
    (verifier.Verify { v with nowFunc := f₁ } sysNow msg).1 =
      (verifier.Verify { v with nowFunc := f₂ } sysNow msg).1 := by
  rw [verify_nowFunc f₁ v sysNow msg, verify_nowFunc f₂ v sysNow msg]

end Httpsig
